import Mathlib

/-!
# Verification of `Fusion360Utilities.py`

A shallow embedding of the utility functions in `Fusion360Utilities.py`.
The host CAD application's object model is represented by explicit pure
state records; every function of the library is translated into a Lean
function on those records, following the Python source line by line.

Modelling conventions, stated once here:

* Bodies, profiles, planes and components referenced only by identity are
  modelled as `Nat` identifiers.  `ObjectCollection`s are Lean lists, and
  the API's `add` appends at the end (Fusion object collections preserve
  insertion order).
* `adsk.core.Vector3D` is modelled restricted to the ray it starts on:
  a vector is a pair of an abstract unit-direction identifier `dir` and a
  rational signed coefficient `coeff` along that unit direction, so the
  actual vector is `coeff • u(dir)` for the fixed unit vector `u(dir)`.
  All vector operations performed by this library (`normalize`, `scaleBy`)
  keep a vector on its ray, so this projection is exact: `normalize`
  maps `c • u` to `sign c • u` (the zero vector is left unchanged, i.e.
  coefficient `0`), and `scaleBy s` maps `c • u` to `(s * c) • u`.
  This avoids square roots while modelling magnitude and direction
  faithfully on the reachable states.
* `copyToComponent` allocates a fresh body identifier from a counter
  `nextId` threaded through the state and appends the new body to the
  target component's body list.
* Python `range(1, q)` over an `int` quantity `q` is the list
  `[1, 2, ..., q-1]`, empty whenever `q ≤ 1` (also for negative `q`).
-/

namespace Fusion360

/-- Model of `adsk.core.Vector3D`, restricted to the ray spanned by the
abstract unit direction `dir`: the vector represented is
`coeff • u(dir)`. -/
structure Vector3D where
  dir : Nat
  coeff : ℚ
  deriving DecidableEq, Repr

/-- The method `Vector3D.normalize` rescales a nonzero vector to unit length, keeping
its direction: the coefficient becomes its sign.  On the zero vector the
host call fails and leaves the vector unchanged (still zero). -/
def Vector3D.normalize (v : Vector3D) : Vector3D :=
  { v with coeff := if 0 < v.coeff then 1 else if v.coeff < 0 then -1 else 0 }

/-- The method `Vector3D.scaleBy` multiplies the vector by a scalar. -/
def Vector3D.scaleBy (v : Vector3D) (s : ℚ) : Vector3D :=
  { v with coeff := v.coeff * s }

/-- Model of `adsk.core.Matrix3D` as used by this library: only the
translation component is ever set.  `none` is the identity transform
produced by `Matrix3D.create()`. -/
structure Matrix3D where
  translation : Option Vector3D
  deriving DecidableEq, Repr

/-- The constructor `adsk.core.Matrix3D.create()` returns the identity transform. -/
def Matrix3D.create : Matrix3D := { translation := none }

/-! ## Timeline: `start_group` / `end_group` (lines 51-69) -/

/-- Model of the design timeline: the marker position and the list of
timeline groups, each group a pair (start index, end index). -/
structure Timeline where
  markerPosition : ℤ
  timelineGroups : List (ℤ × ℤ)
  deriving DecidableEq, Repr

/-- Model of `start_group()`: reads the timeline marker position and returns it.
The timeline is returned unchanged (the source only reads state). -/
def start_group (t : Timeline) : ℤ × Timeline :=
  (t.markerPosition, t)

/-- Model of `end_group(start_index)`: computes `end_index = markerPosition - 1`
and adds the group `(start_index, end_index)` to the timeline groups. -/
def end_group (start_index : ℤ) (t : Timeline) : Timeline :=
  let end_index := t.markerPosition - 1
  { t with timelineGroups := t.timelineGroups ++ [(start_index, end_index)] }

/-! ## Sketches and `sketch_by_name` (lines 88-96) -/

/-- Model of a sketch: its name and the identifiers of its profiles. -/
structure Sketch where
  name : String
  profiles : List Nat
  deriving DecidableEq, Repr

/-- The loop of `sketch_by_name`: `return_sketch` is the accumulator,
overwritten each time a sketch's name matches. -/
def sbnLoop (name : String) (return_sketch : Option Sketch) :
    List Sketch → Option Sketch
  | [] => return_sketch
  | sketch :: rest =>
      sbnLoop name (if sketch.name = name then some sketch else return_sketch) rest

/-- Model of `sketch_by_name(sketches, name)`: iterates over all sketches, keeping
the most recent one whose name matches, starting from `None`. -/
def sketch_by_name (sketches : List Sketch) (name : String) : Option Sketch :=
  sbnLoop name none sketches

/-! ## `extrude_all_profiles` (lines 100-112) -/

/-- An extrude feature as recorded by
`extrudes.createInput(profiles, operation)` followed by
`setDistanceExtent(isSymmetric, distance)` and `extrudes.add`.
Feature operations are modelled as `Nat` enumeration values. -/
structure ExtrudeFeature where
  profiles : List Nat
  operation : Nat
  isSymmetric : Bool
  distance : ℚ
  deriving DecidableEq, Repr

/-- The extrude-feature collection of a component. -/
structure ExtComponent where
  extrudeFeatures : List ExtrudeFeature
  deriving DecidableEq, Repr

/-- Model of `extrude_all_profiles(sketch, distance, component, operation)`: builds
a collection of all profiles of the sketch, creates an extrude input on
that collection with the given operation, sets a non-symmetric distance
extent (`setDistanceExtent(False, distance)`), and adds the feature. -/
def extrude_all_profiles (sketch : Sketch) (distance : ℚ)
    (component : ExtComponent) (operation : Nat) : ExtComponent :=
  let profile_collection := sketch.profiles.foldl (fun c p => c ++ [p]) []
  let ext_input : ExtrudeFeature :=
    { profiles := profile_collection, operation := operation,
      isSymmetric := false, distance := distance }
  { component with extrudeFeatures := component.extrudeFeatures ++ [ext_input] }

/-! ## `create_component` (lines 116-121) -/

/-- A component observed only through its name (the component created by
`addNewComponent`, renamed by `create_component`). -/
structure NamedComponent where
  name : String
  deriving DecidableEq, Repr

/-- An occurrence: its placement transform and its component.  In the
source the component is renamed through the occurrence reference after
the occurrence is inserted; the model is pure, so the rename is applied
to the single occurrence value before insertion, which is observably the
same final state. -/
structure Occurrence where
  transform : Matrix3D
  component : NamedComponent
  deriving DecidableEq, Repr

/-- The occurrence list of a target component. -/
structure OccParent where
  occurrences : List Occurrence
  deriving DecidableEq, Repr

/-- Model of `create_component(target_component, name)`: creates an identity
transform, adds a new occurrence (with a new component) to the target
component, sets the new component's name, and returns the occurrence. -/
def create_component (target_component : OccParent) (name : String) :
    Occurrence × OccParent :=
  let transform := Matrix3D.create
  let new_occurrence : Occurrence :=
    { transform := transform, component := { name := name } }
  (new_occurrence,
   { occurrences := target_component.occurrences ++ [new_occurrence] })

/-! ## `import_dxf` (lines 73-84) -/

/-- Model of `adsk.core.DXF2DImportOptions`: created from a file name and
a planar entity (a `Nat` identifier); after the import is executed,
`results` holds the sketches the import created. -/
structure DXF2DImportOptions where
  file : String
  plane : Nat
  results : List Sketch
  deriving DecidableEq, Repr

/-- A record of one `importToTarget` call: the options used and the
target component identifier. -/
structure ImportCall where
  options : DXF2DImportOptions
  target : Nat
  deriving DecidableEq, Repr

/-- Model of the host `ImportManager`: `importOutcome` is the
host-determined function giving the sketches a DXF import of a given file
on a given plane creates (one sketch per layer), and `calls` records the
`importToTarget` calls performed. -/
structure ImportManager where
  importOutcome : String → Nat → List Sketch
  calls : List ImportCall

/-- Model of `createDXF2DImportOptions(dxf_file, plane)`: fresh options with empty
results. -/
def ImportManager.createDXF2DImportOptions (_im : ImportManager)
    (dxf_file : String) (plane : Nat) : DXF2DImportOptions :=
  { file := dxf_file, plane := plane, results := [] }

/-- Model of `importToTarget(options, component)`: executes the import into the
target component; the host fills the options' `results` with the created
sketches.  Returns the filled options and the manager with the call
recorded. -/
def ImportManager.importToTarget (im : ImportManager)
    (opts : DXF2DImportOptions) (component : Nat) :
    DXF2DImportOptions × ImportManager :=
  let filled := { opts with results := im.importOutcome opts.file opts.plane }
  (filled, { im with calls := im.calls ++ [{ options := filled, target := component }] })

/-- Model of `import_dxf(dxf_file, component, plane)`: creates DXF 2D import
options from the file and plane, imports to the target component, and
returns the options' results (the sketches created). -/
def import_dxf (im : ImportManager) (dxf_file : String) (component : Nat)
    (plane : Nat) : List Sketch × ImportManager :=
  let dxf_options := im.createDXF2DImportOptions dxf_file plane
  let r := im.importToTarget dxf_options component
  let sketches := r.1.results
  (sketches, r.2)

/-! ## `combine_feature` (lines 178-192) -/

/-- A combine feature: target body, tool bodies (in collection order) and
operation, as built by `createInput`, the `operation` assignment and
`add`. -/
structure CombineFeature where
  targetBody : Nat
  tools : List Nat
  operation : Nat
  deriving DecidableEq, Repr

/-- The combine-feature collection of a component. -/
structure CombComponent where
  combineFeatures : List CombineFeature
  deriving DecidableEq, Repr

/-- A body for `combine_feature`: its identifier and its parent
component. -/
structure CBody where
  id : Nat
  parentComponent : CombComponent
  deriving DecidableEq, Repr

/-- Model of `combine_feature(target_body, tool_bodies, operation)`: collects the
tool bodies, creates a combine input with the target body and that
collection, sets its operation, and adds it to the combine features of
the target body's parent component.  Returns the updated parent
component. -/
def combine_feature (target_body : CBody) (tool_bodies : List Nat)
    (operation : Nat) : CombComponent :=
  let combine_features := target_body.parentComponent.combineFeatures
  let combine_tools := tool_bodies.foldl (fun c t => c ++ [t]) []
  let combine_input : CombineFeature :=
    { targetBody := target_body.id, tools := combine_tools,
      operation := operation }
  { combineFeatures := combine_features ++ [combine_input] }

/-! ## `rect_body_pattern` (lines 125-171) -/

/-- A move feature: the source body collection and the transform, as
built by `move_feats.createInput(source, transform)` and added. -/
structure MoveFeature where
  source : List Nat
  transform : Matrix3D
  deriving DecidableEq, Repr

/-- The target component of `rect_body_pattern`: its bodies and its
move-feature collection. -/
structure Component where
  bodies : List Nat
  moveFeatures : List MoveFeature
  deriving DecidableEq, Repr

/-- The full mutable state of `rect_body_pattern`: the target component,
the fresh-identifier counter backing `copyToComponent`, the caller's two
axis vectors (mutated in place by the source), and the local collections
`x_bodies` and `all_bodies`. -/
structure PatternSt where
  comp : Component
  nextId : Nat
  xAxis : Vector3D
  yAxis : Vector3D
  xBodies : List Nat
  allBodies : List Nat
  deriving DecidableEq, Repr

/-- The inner `for body in bodies` loop of an x iteration: each body is
copied to the target component (`copyToComponent`), and the copy is added
to `x_source` (the returned list), `x_bodies` and `all_bodies`. -/
def copyBodiesX : List Nat → PatternSt → List Nat × PatternSt
  | [], s => ([], s)
  | _ :: bs, s =>
      let nb := s.nextId
      let s1 : PatternSt :=
        { comp := { bodies := s.comp.bodies ++ [nb],
                    moveFeatures := s.comp.moveFeatures },
          nextId := nb + 1, xAxis := s.xAxis, yAxis := s.yAxis,
          xBodies := s.xBodies ++ [nb], allBodies := s.allBodies ++ [nb] }
      let r := copyBodiesX bs s1
      (nb :: r.1, r.2)

/-- The inner `for body in x_bodies` loop of a y iteration: each body is
copied to the target component, and the copy is added to `y_source` (the
returned list) and `all_bodies` (but not `x_bodies`). -/
def copyBodiesY : List Nat → PatternSt → List Nat × PatternSt
  | [], s => ([], s)
  | _ :: bs, s =>
      let nb := s.nextId
      let s1 : PatternSt :=
        { comp := { bodies := s.comp.bodies ++ [nb],
                    moveFeatures := s.comp.moveFeatures },
          nextId := nb + 1, xAxis := s.xAxis, yAxis := s.yAxis,
          xBodies := s.xBodies, allBodies := s.allBodies ++ [nb] }
      let r := copyBodiesY bs s1
      (nb :: r.1, r.2)

/-- One iteration of the x loop with loop index `i`: copy all original
bodies, then `x_axis.normalize(); x_axis.scaleBy(x_distance * i)`, set
the transform's translation to the mutated `x_axis`, and add the move
feature on the copied collection. -/
def xIteration (bodies : List Nat) (x_distance : ℚ) (i : Nat)
    (s : PatternSt) : PatternSt :=
  let r := copyBodiesX bodies s
  let s1 := r.2
  let ax := (s1.xAxis.normalize).scaleBy (x_distance * i)
  let x_transform := { Matrix3D.create with translation := some ax }
  { comp := { bodies := s1.comp.bodies,
              moveFeatures := s1.comp.moveFeatures ++
                [{ source := r.1, transform := x_transform }] },
    nextId := s1.nextId, xAxis := ax, yAxis := s1.yAxis,
    xBodies := s1.xBodies, allBodies := s1.allBodies }

/-- One iteration of the y loop with loop index `j`: copy every body of
`x_bodies`, then `y_axis.normalize(); y_axis.scaleBy(y_distance * j)`,
set the transform's translation to the mutated `y_axis`, and add the
move feature on the copied collection. -/
def yIteration (y_distance : ℚ) (j : Nat) (s : PatternSt) : PatternSt :=
  let r := copyBodiesY s.xBodies s
  let s1 := r.2
  let ay := (s1.yAxis.normalize).scaleBy (y_distance * j)
  let y_transform := { Matrix3D.create with translation := some ay }
  { comp := { bodies := s1.comp.bodies,
              moveFeatures := s1.comp.moveFeatures ++
                [{ source := r.1, transform := y_transform }] },
    nextId := s1.nextId, xAxis := s1.xAxis, yAxis := ay,
    xBodies := s1.xBodies, allBodies := s1.allBodies }

/-- The x loop, iterated over the list of loop indices. -/
def xLoop (bodies : List Nat) (x_distance : ℚ) :
    List Nat → PatternSt → PatternSt
  | [], s => s
  | i :: rest, s => xLoop bodies x_distance rest (xIteration bodies x_distance i s)

/-- The y loop, iterated over the list of loop indices. -/
def yLoop (y_distance : ℚ) : List Nat → PatternSt → PatternSt
  | [], s => s
  | j :: rest, s => yLoop y_distance rest (yIteration y_distance j s)

/-- Python `range(1, q)` for an integer quantity `q`: the loop indices
`[1, ..., q-1]`, empty whenever `q ≤ 1`. -/
def pyRange1 (q : ℤ) : List Nat :=
  (List.range (q - 1).toNat).map (fun k => k + 1)

/-- Model of `rect_body_pattern(target_component, bodies, x_axis, y_axis, x_qty,
x_distance, y_qty, y_distance)`: seeds `x_bodies` and `all_bodies` with
the input bodies, runs the x loop over `range(1, x_qty)` and the y loop
over `range(1, y_qty)`, and returns `all_bodies`.  `nextId` seeds the
fresh-identifier supply for `copyToComponent`.  The second component of
the result is the final state (component, counter, axis vectors). -/
def rect_body_pattern (target_component : Component) (bodies : List Nat)
    (x_axis y_axis : Vector3D) (x_qty : ℤ) (x_distance : ℚ) (y_qty : ℤ)
    (y_distance : ℚ) (nextId : Nat) : List Nat × PatternSt :=
  let s0 : PatternSt :=
    { comp := target_component, nextId := nextId, xAxis := x_axis,
      yAxis := y_axis, xBodies := bodies, allBodies := bodies }
  let s1 := xLoop bodies x_distance (pyRange1 x_qty) s0
  let s2 := yLoop y_distance (pyRange1 y_qty) s1
  (s2.allBodies, s2)

/-! ## General helper lemmas -/

/-- A left fold that appends each element builds `acc ++ l` (the
`ObjectCollection.add` loop). -/
theorem foldl_push_eq {α : Type} : ∀ (l acc : List α),
    l.foldl (fun c p => c ++ [p]) acc = acc ++ l
  | [], acc => by simp
  | x :: l, acc => by
      rw [List.foldl_cons, foldl_push_eq l (acc ++ [x])]
      simp

/-- The loop of `sketch_by_name` computes the last matching element,
falling back to the accumulator. -/
theorem sbnLoop_eq (name : String) : ∀ (l : List Sketch) (acc : Option Sketch),
    sbnLoop name acc l = ((l.filter fun s => s.name = name).getLast?).or acc := by
  intro l
  induction l with
  | nil => intro acc; simp [sbnLoop]
  | cons x xs ih =>
      intro acc
      rw [sbnLoop, ih]
      by_cases hx : x.name = name
      · rcases hfx : xs.filter (fun s => s.name = name) with _ | ⟨t, ts⟩
        · simp [List.filter_cons, hx, hfx]
        · have hz : ((t :: ts).getLast?) = some ((t :: ts).getLast (by simp)) :=
            List.getLast?_eq_getLast _ _
          simp [List.filter_cons, hx, hfx, hz]
      · simp [List.filter_cons, hx]

/-- Closed form of the inner x copy loop: the copies are the fresh
identifiers `nextId, ..., nextId + |bodies| - 1`, appended to the
component's bodies, `x_bodies` and `all_bodies`; nothing else changes. -/
theorem copyBodiesX_eq (bs : List Nat) : ∀ (s : PatternSt),
    copyBodiesX bs s =
      (List.range' s.nextId bs.length,
       { comp := { bodies := s.comp.bodies ++ List.range' s.nextId bs.length,
                   moveFeatures := s.comp.moveFeatures },
         nextId := s.nextId + bs.length, xAxis := s.xAxis, yAxis := s.yAxis,
         xBodies := s.xBodies ++ List.range' s.nextId bs.length,
         allBodies := s.allBodies ++ List.range' s.nextId bs.length }) := by
  induction bs with
  | nil => intro s; simp [copyBodiesX]
  | cons b bs ih =>
      intro s
      rw [copyBodiesX, ih]
      simp only [List.length_cons, List.range'_succ]
      have h : s.nextId + 1 + bs.length = s.nextId + (bs.length + 1) := by omega
      simp [List.append_assoc, h]

/-- Closed form of the inner y copy loop: as for the x copy loop, except
that `x_bodies` is untouched. -/
theorem copyBodiesY_eq (bs : List Nat) : ∀ (s : PatternSt),
    copyBodiesY bs s =
      (List.range' s.nextId bs.length,
       { comp := { bodies := s.comp.bodies ++ List.range' s.nextId bs.length,
                   moveFeatures := s.comp.moveFeatures },
         nextId := s.nextId + bs.length, xAxis := s.xAxis, yAxis := s.yAxis,
         xBodies := s.xBodies,
         allBodies := s.allBodies ++ List.range' s.nextId bs.length }) := by
  induction bs with
  | nil => intro s; simp [copyBodiesY]
  | cons b bs ih =>
      intro s
      rw [copyBodiesY, ih]
      simp only [List.length_cons, List.range'_succ]
      have h : s.nextId + 1 + bs.length = s.nextId + (bs.length + 1) := by omega
      simp [List.append_assoc, h]

/-- Closed form of one x iteration. -/
theorem xIteration_eq (bodies : List Nat) (xd : ℚ) (i : Nat) (s : PatternSt) :
    xIteration bodies xd i s =
      { comp := { bodies := s.comp.bodies ++ List.range' s.nextId bodies.length,
                  moveFeatures := s.comp.moveFeatures ++
                    [{ source := List.range' s.nextId bodies.length,
                       transform :=
                         { translation :=
                             some ((s.xAxis.normalize).scaleBy (xd * i)) } }] },
        nextId := s.nextId + bodies.length,
        xAxis := (s.xAxis.normalize).scaleBy (xd * i),
        yAxis := s.yAxis,
        xBodies := s.xBodies ++ List.range' s.nextId bodies.length,
        allBodies := s.allBodies ++ List.range' s.nextId bodies.length } := by
  rw [xIteration, copyBodiesX_eq]

/-- Closed form of one y iteration: it copies the `x_bodies` of the
current state (which it does not modify). -/
theorem yIteration_eq (yd : ℚ) (j : Nat) (s : PatternSt) :
    yIteration yd j s =
      { comp := { bodies := s.comp.bodies ++ List.range' s.nextId s.xBodies.length,
                  moveFeatures := s.comp.moveFeatures ++
                    [{ source := List.range' s.nextId s.xBodies.length,
                       transform :=
                         { translation :=
                             some ((s.yAxis.normalize).scaleBy (yd * j)) } }] },
        nextId := s.nextId + s.xBodies.length,
        xAxis := s.xAxis,
        yAxis := (s.yAxis.normalize).scaleBy (yd * j),
        xBodies := s.xBodies,
        allBodies := s.allBodies ++ List.range' s.nextId s.xBodies.length } := by
  rw [yIteration, copyBodiesY_eq]

/-- State effect of the whole x loop: over a list of `k` loop indices it
appends `k * |bodies|` fresh identifiers to the component's bodies,
`x_bodies` and `all_bodies`, advances the counter accordingly, leaves the
y axis unchanged, and appends exactly one move feature per iteration. -/
theorem xLoop_spec (bodies : List Nat) (xd : ℚ) : ∀ (il : List Nat) (s : PatternSt),
    ((xLoop bodies xd il s).allBodies
        = s.allBodies ++ List.range' s.nextId (il.length * bodies.length)) ∧
    ((xLoop bodies xd il s).xBodies
        = s.xBodies ++ List.range' s.nextId (il.length * bodies.length)) ∧
    ((xLoop bodies xd il s).comp.bodies
        = s.comp.bodies ++ List.range' s.nextId (il.length * bodies.length)) ∧
    ((xLoop bodies xd il s).nextId = s.nextId + il.length * bodies.length) ∧
    ((xLoop bodies xd il s).yAxis = s.yAxis) ∧
    (∃ fx, (xLoop bodies xd il s).comp.moveFeatures
        = s.comp.moveFeatures ++ fx ∧ fx.length = il.length) := by
  intro il
  induction il with
  | nil => intro s; exact ⟨by simp [xLoop], by simp [xLoop], by simp [xLoop],
      by simp [xLoop], by simp [xLoop], ⟨[], by simp [xLoop], rfl⟩⟩
  | cons i il ih =>
      intro s
      obtain ⟨hA, hX, hB, hN, hY, fx1, hM, hL⟩ := ih (xIteration bodies xd i s)
      rw [xLoop]
      refine ⟨?_, ?_, ?_, ?_, ?_, ?_⟩
      · rw [hA, xIteration_eq]
        simp [List.append_assoc]
        ring
      · rw [hX, xIteration_eq]
        simp [List.append_assoc]
        ring
      · rw [hB, xIteration_eq]
        simp [List.append_assoc]
        ring
      · rw [hN, xIteration_eq]
        simp
        ring
      · rw [hY, xIteration_eq]
      · refine ⟨MoveFeature.mk (List.range' s.nextId bodies.length)
            (Matrix3D.mk (some ((s.xAxis.normalize).scaleBy (xd * i)))) :: fx1, ?_, ?_⟩
        · rw [hM, xIteration_eq]
          simp
        · simp [hL]

/-- State effect of the whole y loop: over a list of `k` loop indices it
appends `k * |x_bodies|` fresh identifiers to the component's bodies and
`all_bodies`, advances the counter accordingly, leaves `x_bodies` and the
x axis unchanged, and appends exactly one move feature per iteration. -/
theorem yLoop_spec (yd : ℚ) : ∀ (il : List Nat) (s : PatternSt),
    ((yLoop yd il s).allBodies
        = s.allBodies ++ List.range' s.nextId (il.length * s.xBodies.length)) ∧
    ((yLoop yd il s).xBodies = s.xBodies) ∧
    ((yLoop yd il s).comp.bodies
        = s.comp.bodies ++ List.range' s.nextId (il.length * s.xBodies.length)) ∧
    ((yLoop yd il s).nextId = s.nextId + il.length * s.xBodies.length) ∧
    ((yLoop yd il s).xAxis = s.xAxis) ∧
    (∃ fy, (yLoop yd il s).comp.moveFeatures
        = s.comp.moveFeatures ++ fy ∧ fy.length = il.length) := by
  intro il
  induction il with
  | nil => intro s; exact ⟨by simp [yLoop], by simp [yLoop], by simp [yLoop],
      by simp [yLoop], by simp [yLoop], ⟨[], by simp [yLoop], rfl⟩⟩
  | cons j il ih =>
      intro s
      obtain ⟨hA, hX, hB, hN, hAx, fy1, hM, hL⟩ := ih (yIteration yd j s)
      have hxb : (yIteration yd j s).xBodies = s.xBodies := by rw [yIteration_eq]
      rw [yLoop]
      refine ⟨?_, ?_, ?_, ?_, ?_, ?_⟩
      · rw [hA, hxb, yIteration_eq]
        simp [List.append_assoc]
        ring
      · rw [hX, hxb]
      · rw [hB, hxb, yIteration_eq]
        simp [List.append_assoc]
        ring
      · rw [hN, hxb, yIteration_eq]
        simp
        ring
      · rw [hAx, yIteration_eq]
      · refine ⟨MoveFeature.mk (List.range' s.nextId s.xBodies.length)
            (Matrix3D.mk (some ((s.yAxis.normalize).scaleBy (yd * j)))) :: fy1, ?_, ?_⟩
        · rw [hM, yIteration_eq]
          simp
        · simp [hL]

/-- Axis effect of the x loop when the distance is positive and the
current x axis has positive coefficient (it points along its original
unit direction): after iterating over indices `il` the x axis is
`xd * (last index)` times the unit direction, and the move features
appended have translations `xd * i` times the unit direction, one per
index `i` in order. -/
theorem xLoop_axis (bodies : List Nat) (xd : ℚ) : ∀ (il : List Nat) (s : PatternSt),
    0 < xd → 0 < s.xAxis.coeff → (∀ i ∈ il, 1 ≤ i) →
    ((xLoop bodies xd il s).xAxis
        = { dir := s.xAxis.dir,
            coeff := (il.map (fun i : ℕ => xd * (i : ℚ))).getLastD s.xAxis.coeff }) ∧
    (∃ fx, (xLoop bodies xd il s).comp.moveFeatures = s.comp.moveFeatures ++ fx ∧
        fx.map (fun f => f.transform.translation)
          = il.map (fun i => some { dir := s.xAxis.dir, coeff := xd * (i : ℚ) })) := by
  intro il
  induction il with
  | nil =>
      intro s _ _ _
      exact ⟨rfl, ⟨[], by simp [xLoop], rfl⟩⟩
  | cons i il ih =>
      intro s hxd hc hil
      have hi1 : (1 : ℚ) ≤ (i : ℚ) := by
        have h := hil i (List.mem_cons_self i il)
        exact_mod_cast h
      have hax : (xIteration bodies xd i s).xAxis
          = { dir := s.xAxis.dir, coeff := xd * (i : ℚ) } := by
        rw [xIteration_eq]
        simp [Vector3D.normalize, Vector3D.scaleBy, hc]
      have hpos : 0 < xd * (i : ℚ) := mul_pos hxd (lt_of_lt_of_le one_pos hi1)
      have hcx : 0 < (xIteration bodies xd i s).xAxis.coeff := by
        rw [hax]
        exact hpos
      obtain ⟨hAx2, fx1, hM1, hT1⟩ := ih (xIteration bodies xd i s) hxd hcx
        (fun k hk => hil k (List.mem_cons_of_mem i hk))
      constructor
      · rw [xLoop, hAx2, hax]
        simp only [List.map_cons, List.getLastD_cons, Vector3D.mk.injEq]
      · refine ⟨MoveFeature.mk (List.range' s.nextId bodies.length)
            (Matrix3D.mk (some ((s.xAxis.normalize).scaleBy (xd * i)))) :: fx1, ?_, ?_⟩
        · rw [xLoop, hM1, xIteration_eq]
          simp
        · have htr : (s.xAxis.normalize).scaleBy (xd * i)
              = { dir := s.xAxis.dir, coeff := xd * (i : ℚ) } := by
            simp [Vector3D.normalize, Vector3D.scaleBy, hc]
          simp [htr, hT1, hax]

/-- Axis effect of the y loop, symmetric to `xLoop_axis`. -/
theorem yLoop_axis (yd : ℚ) : ∀ (il : List Nat) (s : PatternSt),
    0 < yd → 0 < s.yAxis.coeff → (∀ j ∈ il, 1 ≤ j) →
    ((yLoop yd il s).yAxis
        = { dir := s.yAxis.dir,
            coeff := (il.map (fun j : ℕ => yd * (j : ℚ))).getLastD s.yAxis.coeff }) ∧
    (∃ fy, (yLoop yd il s).comp.moveFeatures = s.comp.moveFeatures ++ fy ∧
        fy.map (fun f => f.transform.translation)
          = il.map (fun j => some { dir := s.yAxis.dir, coeff := yd * (j : ℚ) })) := by
  intro il
  induction il with
  | nil =>
      intro s _ _ _
      exact ⟨rfl, ⟨[], by simp [yLoop], rfl⟩⟩
  | cons j il ih =>
      intro s hyd hc hil
      have hj1 : (1 : ℚ) ≤ (j : ℚ) := by
        have h := hil j (List.mem_cons_self j il)
        exact_mod_cast h
      have hay : (yIteration yd j s).yAxis
          = { dir := s.yAxis.dir, coeff := yd * (j : ℚ) } := by
        rw [yIteration_eq]
        simp [Vector3D.normalize, Vector3D.scaleBy, hc]
      have hpos : 0 < yd * (j : ℚ) := mul_pos hyd (lt_of_lt_of_le one_pos hj1)
      have hcy : 0 < (yIteration yd j s).yAxis.coeff := by
        rw [hay]
        exact hpos
      obtain ⟨hAy2, fy1, hM1, hT1⟩ := ih (yIteration yd j s) hyd hcy
        (fun k hk => hil k (List.mem_cons_of_mem j hk))
      constructor
      · rw [yLoop, hAy2, hay]
        simp only [List.map_cons, List.getLastD_cons, Vector3D.mk.injEq]
      · refine ⟨MoveFeature.mk (List.range' s.nextId s.xBodies.length)
            (Matrix3D.mk (some ((s.yAxis.normalize).scaleBy (yd * j)))) :: fy1, ?_, ?_⟩
        · rw [yLoop, hM1, yIteration_eq]
          simp
        · have htr : (s.yAxis.normalize).scaleBy (yd * j)
              = { dir := s.yAxis.dir, coeff := yd * (j : ℚ) } := by
            simp [Vector3D.normalize, Vector3D.scaleBy, hc]
          simp [htr, hT1, hay]

/-- Evaluation of `pyRange1 q` as the contiguous range `[1, ..., q-1]`. -/
theorem pyRange1_eq (q : ℤ) : pyRange1 q = List.range' 1 (q - 1).toNat := by
  rw [pyRange1, List.range'_eq_map_range]
  exact List.map_congr_left fun k _ => by omega

/-- Length of the Python loop-index list `range(1, q)`. -/
theorem pyRange1_length (q : ℤ) : (pyRange1 q).length = (q - 1).toNat := by
  simp [pyRange1]

/-- Unfolding of `rect_body_pattern` into its two loops. -/
theorem rect_body_pattern_def (tc : Component) (bodies : List Nat)
    (xa ya : Vector3D) (xq : ℤ) (xd : ℚ) (yq : ℤ) (yd : ℚ) (nid : Nat) :
    rect_body_pattern tc bodies xa ya xq xd yq yd nid
      = ((yLoop yd (pyRange1 yq) (xLoop bodies xd (pyRange1 xq)
            ⟨tc, nid, xa, ya, bodies, bodies⟩)).allBodies,
         yLoop yd (pyRange1 yq) (xLoop bodies xd (pyRange1 xq)
            ⟨tc, nid, xa, ya, bodies, bodies⟩)) := rfl

/-! ## Theorems for the claims -/

/-- C2: `sketch_by_name` returns the last sketch in iteration order whose
name equals the given name, and returns `none` if and only if no sketch
in the collection has that name.  (The source only reads the collection
and the sketches, which is why it is embedded as a pure function.) -/
theorem sketch_by_name_c2 (sketches : List Sketch) (name : String) :
    sketch_by_name sketches name = (sketches.filter fun s => s.name = name).getLast? ∧
    (sketch_by_name sketches name = none ↔ ∀ s ∈ sketches, s.name ≠ name) := by
  have h : sketch_by_name sketches name
      = (sketches.filter fun s => s.name = name).getLast? := by
    rw [sketch_by_name, sbnLoop_eq]
    rcases (sketches.filter fun s => s.name = name).getLast? with _ | s <;> simp
  refine ⟨h, ?_⟩
  rw [h, List.getLast?_eq_none_iff, List.filter_eq_nil_iff]
  simp

/-- C3: `start_group` returns the timeline's current marker position and
changes no state, and `end_group start_index` adds exactly one timeline
group spanning from `start_index` to the marker position at the time of
the call minus one; for a bracketed sequence advancing the marker by `k`
entries, the added group covers exactly those `k` entries. -/
theorem start_end_group_c3 (t tAdv : Timeline) (k : ℕ)
    (hAdv : tAdv.markerPosition = t.markerPosition + k) :
    (start_group t).2 = t ∧
    (start_group t).1 = t.markerPosition ∧
    (end_group (start_group t).1 tAdv).timelineGroups
      = tAdv.timelineGroups ++ [((start_group t).1, tAdv.markerPosition - 1)] ∧
    (end_group (start_group t).1 tAdv).markerPosition = tAdv.markerPosition ∧
    (∀ idx : ℤ,
      ((start_group t).1 ≤ idx ∧ idx ≤ tAdv.markerPosition - 1) ↔
      (t.markerPosition ≤ idx ∧ idx < t.markerPosition + k)) := by
  refine ⟨rfl, rfl, rfl, rfl, ?_⟩
  intro idx
  rw [start_group, hAdv]
  constructor
  · rintro ⟨h1, h2⟩
    exact ⟨h1, by omega⟩
  · rintro ⟨h1, h2⟩
    exact ⟨h1, by omega⟩

/-- Witness for C3 at a concrete timeline advanced by two entries. -/
theorem start_end_group_c3_witness :
    (Timeline.mk 7 [] ).markerPosition = (Timeline.mk 5 []).markerPosition + (2 : ℕ) ∧
    ((start_group (Timeline.mk 5 [])).2 = Timeline.mk 5 [] ∧
     (start_group (Timeline.mk 5 [])).1 = (Timeline.mk 5 []).markerPosition ∧
     (end_group (start_group (Timeline.mk 5 [])).1 (Timeline.mk 7 [])).timelineGroups
       = (Timeline.mk 7 []).timelineGroups ++
         [((start_group (Timeline.mk 5 [])).1, (Timeline.mk 7 []).markerPosition - 1)] ∧
     (end_group (start_group (Timeline.mk 5 [])).1 (Timeline.mk 7 [])).markerPosition
       = (Timeline.mk 7 []).markerPosition ∧
     (∀ idx : ℤ,
       ((start_group (Timeline.mk 5 [])).1 ≤ idx ∧
          idx ≤ (Timeline.mk 7 []).markerPosition - 1) ↔
       ((Timeline.mk 5 []).markerPosition ≤ idx ∧
          idx < (Timeline.mk 5 []).markerPosition + (2 : ℕ)))) :=
  ⟨by decide, start_end_group_c3 (Timeline.mk 5 []) (Timeline.mk 7 []) 2 (by decide)⟩

/-- C5: `extrude_all_profiles` adds exactly one extrude feature to the
component, whose profile collection is exactly the profiles of the given
sketch in order, with a non-symmetric distance extent equal to the given
distance and the given feature operation. -/
theorem extrude_all_profiles_c5 (sketch : Sketch) (distance : ℚ)
    (component : ExtComponent) (operation : Nat) :
    (extrude_all_profiles sketch distance component operation).extrudeFeatures
      = component.extrudeFeatures ++
        [{ profiles := sketch.profiles, operation := operation,
           isSymmetric := false, distance := distance }] := by
  rw [extrude_all_profiles]
  rw [foldl_push_eq]
  simp

/-- C6: `combine_feature` adds exactly one combine feature to the target
body's parent component, whose target is the given body, whose tool
collection is exactly the given tool bodies in order, and whose
operation equals the given operation. -/
theorem combine_feature_c6 (target_body : CBody) (tool_bodies : List Nat)
    (operation : Nat) :
    (combine_feature target_body tool_bodies operation).combineFeatures
      = target_body.parentComponent.combineFeatures ++
        [{ targetBody := target_body.id, tools := tool_bodies,
           operation := operation }] := by
  rw [combine_feature]
  rw [foldl_push_eq]
  simp

/-- C7: `import_dxf` creates DXF 2D import options from the file and the
plane, performs exactly one `importToTarget` call with those options into
the given component, and returns exactly the results collection of those
options (the sketches the host created for the import). -/
theorem import_dxf_c7 (im : ImportManager) (dxf_file : String)
    (component : Nat) (plane : Nat) :
    (import_dxf im dxf_file component plane).1 = im.importOutcome dxf_file plane ∧
    (import_dxf im dxf_file component plane).2.calls
      = im.calls ++
        [{ options := { file := dxf_file, plane := plane,
                        results := im.importOutcome dxf_file plane },
           target := component }] ∧
    (import_dxf im dxf_file component plane).2.importOutcome = im.importOutcome :=
  ⟨rfl, rfl, rfl⟩

/-- C8: `create_component` adds exactly one new occurrence to the target
component, using the identity transform, sets the name of the
occurrence's component to the given name, and returns that new
occurrence. -/
theorem create_component_c8 (target_component : OccParent) (name : String) :
    (create_component target_component name).1.transform = Matrix3D.create ∧
    (create_component target_component name).1.transform.translation = none ∧
    (create_component target_component name).1.component.name = name ∧
    (create_component target_component name).2.occurrences
      = target_component.occurrences ++ [(create_component target_component name).1] :=
  ⟨rfl, rfl, rfl, rfl⟩

/-- C1: for a list of input bodies of size `n ≥ 1` and quantities
`x_qty ≥ 1`, `y_qty ≥ 1`, `rect_body_pattern` returns a collection of
exactly `n * x_qty * y_qty` bodies, starting with the `n` original input
bodies; the remaining bodies are copies created by `copyToComponent` into
the target component (fresh identifiers, present in the target
component's body list). -/
theorem rect_body_pattern_c1 (target_component : Component) (bodies : List Nat)
    (x_axis y_axis : Vector3D) (x_qty : ℤ) (x_distance : ℚ) (y_qty : ℤ)
    (y_distance : ℚ) (nid : Nat)
    (hn : 1 ≤ bodies.length) (hx : 1 ≤ x_qty) (hy : 1 ≤ y_qty) :
    (rect_body_pattern target_component bodies x_axis y_axis x_qty x_distance
        y_qty y_distance nid).1.length
      = bodies.length * x_qty.toNat * y_qty.toNat ∧
    ∃ t, (rect_body_pattern target_component bodies x_axis y_axis x_qty
        x_distance y_qty y_distance nid).1 = bodies ++ t ∧
      ∀ b ∈ t, nid ≤ b ∧
        b ∈ (rect_body_pattern target_component bodies x_axis y_axis x_qty
            x_distance y_qty y_distance nid).2.comp.bodies := by
  rw [rect_body_pattern_def]
  obtain ⟨hA1, hX1, hB1, hN1, hY1, fx, hM1, hL1⟩ :=
    xLoop_spec bodies x_distance (pyRange1 x_qty)
      ⟨target_component, nid, x_axis, y_axis, bodies, bodies⟩
  obtain ⟨hA2, hX2, hB2, hN2, hAx2, fy, hM2, hL2⟩ :=
    yLoop_spec y_distance (pyRange1 y_qty)
      (xLoop bodies x_distance (pyRange1 x_qty)
        ⟨target_component, nid, x_axis, y_axis, bodies, bodies⟩)
  dsimp only at hA1 hX1 hB1 hN1 hA2 hB2 hN2
  rw [pyRange1_length] at hA1 hX1 hB1 hN1
  rw [pyRange1_length] at hA2 hB2 hN2
  have hxbl : (xLoop bodies x_distance (pyRange1 x_qty)
      ⟨target_component, nid, x_axis, y_axis, bodies, bodies⟩).xBodies.length
      = bodies.length + (x_qty - 1).toNat * bodies.length := by
    rw [hX1]
    simp
  rw [hA1, hN1, hxbl] at hA2
  rw [hB1, hN1, hxbl] at hB2
  have h1 : x_qty.toNat = (x_qty - 1).toNat + 1 := by omega
  have h2 : y_qty.toNat = (y_qty - 1).toNat + 1 := by omega
  constructor
  · dsimp only
    rw [hA2]
    simp only [List.length_append, List.length_range', List.append_assoc]
    rw [h1, h2]
    ring
  · refine ⟨List.range' nid ((x_qty - 1).toNat * bodies.length) ++
      List.range' (nid + (x_qty - 1).toNat * bodies.length)
        ((y_qty - 1).toNat * (bodies.length + (x_qty - 1).toNat * bodies.length)),
      ?_, ?_⟩
    · dsimp only
      rw [hA2, List.append_assoc]
    · intro b hb
      rcases List.mem_append.mp hb with h | h
      · have hr := List.mem_range'_1.mp h
        refine ⟨by omega, ?_⟩
        dsimp only
        rw [hB2]
        simp only [List.mem_append]
        exact Or.inl (Or.inr h)
      · have hr := List.mem_range'_1.mp h
        refine ⟨by omega, ?_⟩
        dsimp only
        rw [hB2]
        simp only [List.mem_append]
        exact Or.inr h

/-- Witness for C1 at a concrete input: two bodies, `x_qty = 2`,
`y_qty = 3`. -/
theorem rect_body_pattern_c1_witness :
    1 ≤ [5, 6].length ∧ 1 ≤ (2 : ℤ) ∧ 1 ≤ (3 : ℤ) ∧
    ((rect_body_pattern ⟨[9], []⟩ [5, 6] ⟨0, 2⟩ ⟨1, 3⟩ 2 1 3 2 10).1.length
        = [5, 6].length * (2 : ℤ).toNat * (3 : ℤ).toNat ∧
      ∃ t, (rect_body_pattern ⟨[9], []⟩ [5, 6] ⟨0, 2⟩ ⟨1, 3⟩ 2 1 3 2 10).1
          = [5, 6] ++ t ∧
        ∀ b ∈ t, 10 ≤ b ∧
          b ∈ (rect_body_pattern ⟨[9], []⟩ [5, 6] ⟨0, 2⟩ ⟨1, 3⟩ 2 1 3 2 10).2.comp.bodies) :=
  ⟨by decide, by decide, by decide,
    rect_body_pattern_c1 ⟨[9], []⟩ [5, 6] ⟨0, 2⟩ ⟨1, 3⟩ 2 1 3 2 10
      (by decide) (by decide) (by decide)⟩

/-- C4: for every input (any integer quantities, any body list)
`rect_body_pattern` terminates (it is a total function), and the x loop
adds exactly `max(x_qty - 1, 0)` move features (one per iteration) and
the y loop exactly `max(y_qty - 1, 0)`; the transforms recorded in those
features are `Matrix3D` translations handed to the move-feature API. -/
theorem rect_body_pattern_c4 (target_component : Component) (bodies : List Nat)
    (x_axis y_axis : Vector3D) (x_qty : ℤ) (x_distance : ℚ) (y_qty : ℤ)
    (y_distance : ℚ) (nid : Nat) :
    ∃ fx fy : List MoveFeature,
      (rect_body_pattern target_component bodies x_axis y_axis x_qty x_distance
          y_qty y_distance nid).2.comp.moveFeatures
        = target_component.moveFeatures ++ fx ++ fy ∧
      (fx.length : ℤ) = max (x_qty - 1) 0 ∧
      (fy.length : ℤ) = max (y_qty - 1) 0 := by
  rw [rect_body_pattern_def]
  obtain ⟨hA1, hX1, hB1, hN1, hY1, fx, hM1, hL1⟩ :=
    xLoop_spec bodies x_distance (pyRange1 x_qty)
      ⟨target_component, nid, x_axis, y_axis, bodies, bodies⟩
  obtain ⟨hA2, hX2, hB2, hN2, hAx2, fy, hM2, hL2⟩ :=
    yLoop_spec y_distance (pyRange1 y_qty)
      (xLoop bodies x_distance (pyRange1 x_qty)
        ⟨target_component, nid, x_axis, y_axis, bodies, bodies⟩)
  dsimp only at hM1
  refine ⟨fx, fy, ?_, ?_, ?_⟩
  · dsimp only
    rw [hM2, hM1, List.append_assoc]
  · rw [hL1, pyRange1_length]
    exact Int.toNat_eq_max _
  · rw [hL2, pyRange1_length]
    exact Int.toNat_eq_max _

/-- C10: with `x_qty ≤ 1` and `y_qty ≤ 1` (including zero and negative
quantities) `rect_body_pattern` copies no bodies, adds no move features,
leaves the target component, the counter and the axis vectors unchanged,
and returns exactly the original input bodies. -/
theorem rect_body_pattern_c10 (target_component : Component) (bodies : List Nat)
    (x_axis y_axis : Vector3D) (x_qty : ℤ) (x_distance : ℚ) (y_qty : ℤ)
    (y_distance : ℚ) (nid : Nat) (hx : x_qty ≤ 1) (hy : y_qty ≤ 1) :
    rect_body_pattern target_component bodies x_axis y_axis x_qty x_distance
        y_qty y_distance nid
      = (bodies, ⟨target_component, nid, x_axis, y_axis, bodies, bodies⟩) := by
  have hx0 : (x_qty - 1).toNat = 0 := by omega
  have hy0 : (y_qty - 1).toNat = 0 := by omega
  rw [rect_body_pattern_def, pyRange1_eq, pyRange1_eq, hx0, hy0]
  simp [xLoop, yLoop]

/-- Witness for C10 at `x_qty = 0`, `y_qty = -1`. -/
theorem rect_body_pattern_c10_witness :
    (0 : ℤ) ≤ 1 ∧ (-1 : ℤ) ≤ 1 ∧
    rect_body_pattern ⟨[7], []⟩ [3, 4] ⟨0, 5⟩ ⟨1, 6⟩ 0 2 (-1) 3 9
      = ([3, 4], ⟨⟨[7], []⟩, 9, ⟨0, 5⟩, ⟨1, 6⟩, [3, 4], [3, 4]⟩) :=
  ⟨by decide, by decide,
    rect_body_pattern_c10 ⟨[7], []⟩ [3, 4] ⟨0, 5⟩ ⟨1, 6⟩ 0 2 (-1) 3 9
      (by decide) (by decide)⟩

/-- C9 counterexample: with `x_qty = 3` and `x_distance = -1`, starting
from the unit x axis (direction `0`, coefficient `1`), the final x axis
is `2` times the original unit direction — not
`x_distance * (x_qty - 1) = -2` times it as the claim states — and the
second move feature's translation is `2` times the unit direction, not
`2 * x_distance = -2` times it: `normalize` re-orients the vector after
a negative scale, so negative distances break the claim. -/
theorem rect_body_pattern_c9_counterexample :
    ((rect_body_pattern ⟨[], []⟩ [0] ⟨0, 1⟩ ⟨1, 1⟩ 3 (-1) 1 0 1).2.xAxis
        = { dir := 0, coeff := 2 }) ∧
    ¬ ((rect_body_pattern ⟨[], []⟩ [0] ⟨0, 1⟩ ⟨1, 1⟩ 3 (-1) 1 0 1).2.xAxis
        = { dir := 0, coeff := (-1) * ((3 : ℚ) - 1) }) ∧
    ((rect_body_pattern ⟨[], []⟩ [0] ⟨0, 1⟩ ⟨1, 1⟩ 3 (-1) 1 0 1).2.comp.moveFeatures.map
        (fun f => f.transform.translation)
      = [some { dir := 0, coeff := -1 }, some { dir := 0, coeff := 2 }]) ∧
    ¬ ((rect_body_pattern ⟨[], []⟩ [0] ⟨0, 1⟩ ⟨1, 1⟩ 3 (-1) 1 0 1).2.comp.moveFeatures.map
        (fun f => f.transform.translation)
      = [some { dir := 0, coeff := (-1) * (1 : ℚ) },
         some { dir := 0, coeff := (-1) * (2 : ℚ) }]) := by
  have hpy3 : pyRange1 3 = [1, 2] := rfl
  have hpy1 : pyRange1 1 = [] := rfl
  rw [rect_body_pattern_def, hpy3, hpy1]
  norm_num [xLoop, yLoop, xIteration_eq, yIteration_eq, Vector3D.normalize,
    Vector3D.scaleBy, Vector3D.mk.injEq]

/-- C9 (amended): the two axis conditions are independent, as in the
claim.  Whenever the x axis is nonzero (modelled as positive coefficient
along its own unit direction), `x_distance` is positive and `x_qty ≥ 2`,
the caller's `x_axis` ends normalized and rescaled to magnitude
`x_distance * (x_qty - 1)` in its original direction and the `i`-th
column of copies is translated by exactly `i * x_distance` along the
unit x direction — regardless of `y_qty`, `y_distance` and the y axis.
Similarly for `y_axis` when the y axis is nonzero, `y_distance` is
positive and `y_qty ≥ 2`, regardless of the x-side arguments.  In each
part the move features decompose as the x-loop features followed by the
y-loop features, the uncharacterized block being pinned by its length
(one feature per loop iteration). -/
theorem rect_body_pattern_c9_amended (target_component : Component)
    (bodies : List Nat) (x_axis y_axis : Vector3D) (x_qty : ℤ)
    (x_distance : ℚ) (y_qty : ℤ) (y_distance : ℚ) (nid : Nat) :
    (0 < x_axis.coeff → 0 < x_distance → 2 ≤ x_qty →
      ((rect_body_pattern target_component bodies x_axis y_axis x_qty x_distance
          y_qty y_distance nid).2.xAxis
        = { dir := x_axis.dir, coeff := x_distance * ((x_qty : ℚ) - 1) }) ∧
      (∃ fx fy : List MoveFeature,
        (rect_body_pattern target_component bodies x_axis y_axis x_qty x_distance
            y_qty y_distance nid).2.comp.moveFeatures
          = target_component.moveFeatures ++ fx ++ fy ∧
        fx.map (fun f => f.transform.translation)
          = (pyRange1 x_qty).map
              (fun i : ℕ => some { dir := x_axis.dir, coeff := x_distance * (i : ℚ) }) ∧
        fy.length = (pyRange1 y_qty).length)) ∧
    (0 < y_axis.coeff → 0 < y_distance → 2 ≤ y_qty →
      ((rect_body_pattern target_component bodies x_axis y_axis x_qty x_distance
          y_qty y_distance nid).2.yAxis
        = { dir := y_axis.dir, coeff := y_distance * ((y_qty : ℚ) - 1) }) ∧
      (∃ fx fy : List MoveFeature,
        (rect_body_pattern target_component bodies x_axis y_axis x_qty x_distance
            y_qty y_distance nid).2.comp.moveFeatures
          = target_component.moveFeatures ++ fx ++ fy ∧
        fx.length = (pyRange1 x_qty).length ∧
        fy.map (fun f => f.transform.translation)
          = (pyRange1 y_qty).map
              (fun j : ℕ => some { dir := y_axis.dir, coeff := y_distance * (j : ℚ) }))) := by
  rw [rect_body_pattern_def]
  have hmemx : ∀ i ∈ pyRange1 x_qty, 1 ≤ i := by
    intro i hi
    rw [pyRange1_eq] at hi
    have h := List.mem_range'_1.mp hi
    omega
  have hmemy : ∀ j ∈ pyRange1 y_qty, 1 ≤ j := by
    intro j hj
    rw [pyRange1_eq] at hj
    have h := List.mem_range'_1.mp hj
    omega
  obtain ⟨hA1, hX1, hB1, hN1, hY1, fx0, hM1, hL1⟩ :=
    xLoop_spec bodies x_distance (pyRange1 x_qty)
      ⟨target_component, nid, x_axis, y_axis, bodies, bodies⟩
  obtain ⟨hA2, hX2, hB2, hN2, hAx2, fy0, hM2, hL2⟩ :=
    yLoop_spec y_distance (pyRange1 y_qty)
      (xLoop bodies x_distance (pyRange1 x_qty)
        ⟨target_component, nid, x_axis, y_axis, bodies, bodies⟩)
  constructor
  · intro hxa hxd hx
    obtain ⟨hax1, fx, hMx, hTx⟩ :=
      xLoop_axis bodies x_distance (pyRange1 x_qty)
        ⟨target_component, nid, x_axis, y_axis, bodies, bodies⟩ hxd hxa hmemx
    dsimp only at hax1 hTx hMx
    have hmqx : (((x_qty - 1).toNat : ℕ) : ℚ) = (x_qty : ℚ) - 1 := by
      have h2 : ((x_qty - 1).toNat : ℤ) = x_qty - 1 := Int.toNat_of_nonneg (by omega)
      exact_mod_cast h2
    have hlastx : ((pyRange1 x_qty).map
        (fun i : ℕ => x_distance * (i : ℚ))).getLastD x_axis.coeff
        = x_distance * ((x_qty : ℚ) - 1) := by
      have hm0 : (x_qty - 1).toNat ≠ 0 := by omega
      have hm0b : x_qty.toNat - 1 ≠ 0 := by omega
      have hcast : ((x_qty.toNat - 1 : ℕ) : ℚ) = (x_qty : ℚ) - 1 := by
        have h : ((x_qty.toNat - 1 : ℕ) : ℤ) = x_qty - 1 := by omega
        exact_mod_cast h
      rw [pyRange1_eq, List.getLastD_eq_getLast?, List.getLast?_map,
        List.getLast?_range']
      simp [hm0, hm0b, hcast, hmqx]
    refine ⟨?_, fx, fy0, ?_, hTx, hL2⟩
    · dsimp only
      rw [hAx2, hax1, hlastx]
    · dsimp only
      rw [hM2, hMx, List.append_assoc]
  · intro hya hyd hy
    have hya1 : 0 < (xLoop bodies x_distance (pyRange1 x_qty)
        ⟨target_component, nid, x_axis, y_axis, bodies, bodies⟩).yAxis.coeff := by
      rw [hY1]
      exact hya
    obtain ⟨hay2, fy, hMy, hTy⟩ :=
      yLoop_axis y_distance (pyRange1 y_qty)
        (xLoop bodies x_distance (pyRange1 x_qty)
          ⟨target_component, nid, x_axis, y_axis, bodies, bodies⟩) hyd hya1 hmemy
    rw [hY1] at hay2 hTy
    dsimp only at hay2 hTy hM1
    have hmqy : (((y_qty - 1).toNat : ℕ) : ℚ) = (y_qty : ℚ) - 1 := by
      have h2 : ((y_qty - 1).toNat : ℤ) = y_qty - 1 := Int.toNat_of_nonneg (by omega)
      exact_mod_cast h2
    have hlasty : ((pyRange1 y_qty).map
        (fun j : ℕ => y_distance * (j : ℚ))).getLastD y_axis.coeff
        = y_distance * ((y_qty : ℚ) - 1) := by
      have hm0 : (y_qty - 1).toNat ≠ 0 := by omega
      have hm0b : y_qty.toNat - 1 ≠ 0 := by omega
      have hcast : ((y_qty.toNat - 1 : ℕ) : ℚ) = (y_qty : ℚ) - 1 := by
        have h : ((y_qty.toNat - 1 : ℕ) : ℤ) = y_qty - 1 := by omega
        exact_mod_cast h
      rw [pyRange1_eq, List.getLastD_eq_getLast?, List.getLast?_map,
        List.getLast?_range']
      simp [hm0, hm0b, hcast, hmqy]
    refine ⟨?_, fx0, fy, ?_, hL1, hTy⟩
    · dsimp only
      rw [hay2, hlasty]
    · dsimp only
      rw [hMy, hM1, List.append_assoc]

/-- Witness for C9 (amended) at a concrete input: one body, positive
axes and distances, `x_qty = 3`, `y_qty = 2`; both implications are
applied with their hypotheses discharged concretely. -/
theorem rect_body_pattern_c9_amended_witness :
    0 < (Vector3D.mk 0 2).coeff ∧ 0 < (1 : ℚ) ∧ (2 : ℤ) ≤ 3 ∧
    0 < (Vector3D.mk 1 3).coeff ∧ 0 < (2 : ℚ) ∧ (2 : ℤ) ≤ 2 ∧
    (((rect_body_pattern ⟨[], []⟩ [0] ⟨0, 2⟩ ⟨1, 3⟩ 3 1 2 2 1).2.xAxis
        = { dir := (Vector3D.mk 0 2).dir, coeff := 1 * (((3 : ℤ) : ℚ) - 1) }) ∧
     (∃ fx fy : List MoveFeature,
       (rect_body_pattern ⟨[], []⟩ [0] ⟨0, 2⟩ ⟨1, 3⟩ 3 1 2 2 1).2.comp.moveFeatures
         = (Component.mk [] []).moveFeatures ++ fx ++ fy ∧
       fx.map (fun f => f.transform.translation)
         = (pyRange1 3).map
             (fun i : ℕ => some { dir := (Vector3D.mk 0 2).dir, coeff := 1 * (i : ℚ) }) ∧
       fy.length = (pyRange1 2).length)) ∧
    (((rect_body_pattern ⟨[], []⟩ [0] ⟨0, 2⟩ ⟨1, 3⟩ 3 1 2 2 1).2.yAxis
        = { dir := (Vector3D.mk 1 3).dir, coeff := 2 * (((2 : ℤ) : ℚ) - 1) }) ∧
     (∃ fx fy : List MoveFeature,
       (rect_body_pattern ⟨[], []⟩ [0] ⟨0, 2⟩ ⟨1, 3⟩ 3 1 2 2 1).2.comp.moveFeatures
         = (Component.mk [] []).moveFeatures ++ fx ++ fy ∧
       fx.length = (pyRange1 3).length ∧
       fy.map (fun f => f.transform.translation)
         = (pyRange1 2).map
             (fun j : ℕ => some { dir := (Vector3D.mk 1 3).dir, coeff := 2 * (j : ℚ) }))) :=
  ⟨by decide, by decide, by decide, by decide, by decide, by decide,
    (rect_body_pattern_c9_amended ⟨[], []⟩ [0] ⟨0, 2⟩ ⟨1, 3⟩ 3 1 2 2 1).1
      (by decide) (by decide) (by decide),
    (rect_body_pattern_c9_amended ⟨[], []⟩ [0] ⟨0, 2⟩ ⟨1, 3⟩ 3 1 2 2 1).2
      (by decide) (by decide) (by decide)⟩

end Fusion360
